import Mathlib

/-!
# terminal-slack: message synchronisation core of `main.js`

A shallow embedding of the event handlers of `src/main.js`
(`getNextId`, `handleSentConfirmation`, `handleNewMessage`, the websocket
router, the submit handler, the roster callback, `updateMessages` and the two
`select` handlers) together with the properties checked against the
specification.

Modelling conventions.

* A JavaScript string is a list of characters (`Str`).
* The module-level variables `users`, `currentUser`, `currentChannelId` are
  fields of `Session`; `undefined` is `none`.
* The counter captured by `getNextId` is a natural number.  JavaScript numbers
  are exact on integers below `2 ^ 53`; the model is meant for that range.
* Calls into collaborators that only have an outside effect (scrolling,
  repainting, sending, marking) are recorded, in order, in `Session.log`.
* A handler that raises a JavaScript exception returns `Except.error` with the
  session as it was when the exception was raised.
-/

namespace TerminalSlack

/-- JavaScript strings, as lists of characters. -/
abbrev Str := List Char

/-- The constant `SCROLL_PER_MESSAGE` of `main.js`. -/
def SCROLL_PER_MESSAGE : Nat := 50

/-- A member record of the user list (`id`, `name`, `deleted`). -/
structure User where
  id : Str
  name : Str
  deleted : Bool
deriving DecidableEq, Repr

/-- The object handed to `ws.send` by the submit handler. -/
structure Payload where
  id : Nat
  type : Str
  channel : Option Str
  text : Str
deriving DecidableEq, Repr

/-- The two read-marker functions passed to `updateMessages`. -/
inductive MarkFn where
  | markChannel
  | markIm
deriving DecidableEq, Repr

/-- Calls into the collaborators that leave the transcript lines alone. -/
inductive Effect where
  | scroll (n : Nat)
  | scrollTo (n : Nat)
  | render
  | clearValue
  | focusInput
  | selectFirstChannel
  | focusChannelList
  | setTitle (content : Str)
  | setUserItems (names : List Str)
  | send (p : Payload)
  | mark (f : MarkFn) (channel : Option Str) (ts : Nat)
deriving DecidableEq, Repr

/-- A parsed realtime event.  `reply_to = none` means the key is absent. -/
structure RtmMessage where
  reply_to : Option Nat
  ok : Bool
  type : Option Str
  channel : Option Str
  user : Str
  text : Str
deriving DecidableEq, Repr

/-- One entry of `data.messages` in a history page. -/
structure HistoryItem where
  type : Option Str
  user : Str
  text : Str
  ts : Nat
deriving DecidableEq, Repr

/-- The module state of `main.js` plus the chat window lines and the record of
outside calls. -/
structure Session where
  users : Option (List User)
  currentUser : Option User
  currentChannelId : Option Str
  id : Nat
  lines : List Str
  log : List Effect
deriving DecidableEq, Repr

/-- The exceptions the handlers can raise. -/
inductive JsError where
  | typeError
deriving DecidableEq, Repr

/-- An exception together with the session at the moment it was raised. -/
structure Thrown where
  error : JsError
  state : Session
deriving DecidableEq, Repr

/-- The session when the module has just been loaded. -/
def Session.initial : Session :=
  { users := none, currentUser := none, currentChannelId := none, id := 0, lines := [], log := [] }

/-- Record one outside call. -/
def Session.emit (s : Session) (e : Effect) : Session :=
  { s with log := s.log ++ [e] }

/-! ## The chat window -/

/-- Modelled from the spec: the chat window widget of `userInterface.js`, which
is not part of the sources.  The Transcript Model of the specification is an
ordered log of lines; `insertBottom` adds a line at the end. -/
def insertBottom (line : Str) (lines : List Str) : List Str := lines ++ [line]

/-- Modelled from the spec: `unshiftLine` of the absent chat window widget adds
a line at the start of the transcript. -/
def unshiftLine (line : Str) (lines : List Str) : List Str := line :: lines

/-- Modelled from the spec: `deleteTop` of the absent chat window widget
removes the first line of the transcript. -/
def deleteTop (lines : List Str) : List Str := lines.drop 1

/-- Modelled from the spec: `deleteLine` of the absent chat window widget
removes the line at a position. -/
def deleteLine (i : Nat) (lines : List Str) : List Str := lines.eraseIdx i

/-- Modelled from the spec: `insertLine` of the absent chat window widget puts
a line at a position, moving the later lines down. -/
def insertLine (i : Nat) (line : Str) (lines : List Str) : List Str :=
  lines.take i ++ line :: lines.drop i

/-- Modelled from the spec: `setContent` of the absent chat window widget
replaces the whole transcript by one line. -/
def setContent (line : Str) : List Str := [line]

/-! ## Strings -/

/-- The text `(pending - ` that `handleSentConfirmation` splits on. -/
def pendingMarker : Str := ['(', 'p', 'e', 'n', 'd', 'i', 'n', 'g', ' ', '-', ' ']

/-- The text ` (FAILED)` appended to a failed send. -/
def failedSuffix : Str := [' ', '(', 'F', 'A', 'I', 'L', 'E', 'D', ')']

/-- The text `Getting messages...` shown while a history page is fetched. -/
def loadingLine : Str :=
  ['G', 'e', 't', 't', 'i', 'n', 'g', ' ', 'm', 'e', 's', 's', 'a', 'g', 'e', 's', '.', '.', '.']

/-- The text `message`, the type of message entries and of sent payloads. -/
def messageType : Str := ['m', 'e', 's', 's', 'a', 'g', 'e']

/-- The text `undefined`, which a template literal prints for `undefined`. -/
def undefinedText : Str := ['u', 'n', 'd', 'e', 'f', 'i', 'n', 'e', 'd']

/-- The template `{bold}${username}{/bold}` used for titles. -/
def boldText (content : Str) : Str :=
  ['{', 'b', 'o', 'l', 'd', '}'] ++ content ++ ['{', '/', 'b', 'o', 'l', 'd', '}']

/-- The template `{bold}${username}{/bold}: ${text}`. -/
def chatLine (username text : Str) : Str :=
  boldText username ++ [':', ' '] ++ text

/-- Decimal text of a number, as a template literal prints it. -/
def numberText (n : Nat) : Str := Nat.toDigits 10 n

/-- The template `{bold}${name}{/bold}: ${text} (pending - ${id})`. -/
def pendingLine (name text : Str) (id : Nat) : Str :=
  chatLine name text ++ [' '] ++ pendingMarker ++ numberText id ++ [')']

/-- The worker of `jsSplit`: `skip` characters of a separator just matched are
still to be passed over, `cur` is the current piece in reverse. -/
def splitGo (sep : Str) : Nat → Str → Str → List Str
  | _, cur, [] => [cur.reverse]
  | skip + 1, cur, _ :: rest => splitGo sep skip cur rest
  | 0, cur, c :: rest =>
    if sep.isPrefixOf (c :: rest) then cur.reverse :: splitGo sep (sep.length - 1) [] rest
    else splitGo sep 0 (c :: cur) rest

/-- The method `String.prototype.split` for a non-empty separator: the pieces
between the successive leftmost occurrences of the separator. -/
def jsSplit (sep s : Str) : List Str := splitGo sep 0 [] s

/-- The call `parseInt(x, 10)` for `x` one character or `undefined`; `none`
stands for `NaN`. -/
def parseIntChar : Option Char → Option Nat
  | none => none
  | some c => if c.isDigit then some (c.toNat - 48) else none

/-- The number read by `parseInt(line.pop()[0], 10)` after
`line = lines[k].split('(pending - ')`. -/
def tagOf (line : Str) : Option Nat :=
  parseIntChar ((jsSplit pendingMarker line).getLast?.bind List.head?)

/-- The test `parseInt(line.pop()[0], 10) === message.reply_to`. -/
def tagMatches (line : Str) (replyTo : Option Nat) : Bool :=
  match tagOf line, replyTo with
  | some d, some r => d == r
  | _, _ => false

/-- The text `line.join('')`, with `(FAILED)` added when `ok` is false, that
replaces a matching line. -/
def patchedLine (line : Str) (ok : Bool) : Str :=
  let kept := ((jsSplit pendingMarker line).dropLast).flatten
  if ok then kept else kept ++ failedSuffix

/-! ## The handlers -/

/-- The function `getNextId` on the counter it captures: the returned id and
the new counter. -/
def getNextId (id : Nat) : Nat × Nat := (id + 1, id + 1)

/-- The loop of `handleSentConfirmation`: `scanPending lines r n` looks at the
positions `n - 1`, ..., `0` in this order and gives the first that matches. -/
def scanPending (lines : List Str) (replyTo : Option Nat) : Nat → Option Nat
  | 0 => none
  | i + 1 =>
    if tagMatches (lines.getD i []) replyTo then some i else scanPending lines replyTo i

/-- The function `handleSentConfirmation`. -/
def handleSentConfirmation (s : Session) (message : RtmMessage) : Session :=
  let lines := s.lines
  let s1 : Session :=
    match scanPending lines message.reply_to lines.length with
    | none => s
    | some i =>
      { s with lines := insertLine i (patchedLine (lines.getD i []) message.ok) (deleteLine i s.lines) }
  (s1.emit (.scroll SCROLL_PER_MESSAGE)).emit .render

/-- The function `handleNewMessage`.  `users.find(...)` raises when `users` is
`undefined`, and `.name` raises when no user is found. -/
def handleNewMessage (s : Session) (message : RtmMessage) : Except Thrown Session :=
  if message.channel ≠ s.currentChannelId then .ok s
  else
    match s.users with
    | none => .error ⟨.typeError, s⟩
    | some us =>
      match us.find? (fun user => message.user == user.id) with
      | none => .error ⟨.typeError, s⟩
      | some user =>
        let s1 := { s with lines := insertBottom (chatLine user.name message.text) s.lines }
        .ok ((s1.emit (.scroll SCROLL_PER_MESSAGE)).emit .render)

/-- The listener `ws.on('message', ...)`. -/
def onWsMessage (s : Session) (parsedMessage : RtmMessage) : Except Thrown Session :=
  if parsedMessage.reply_to.isSome then .ok (handleSentConfirmation s parsedMessage)
  else if parsedMessage.type = some messageType then handleNewMessage s parsedMessage
  else .ok s

/-- The first lines of the callback of `slack.init`: `currentUser = data.self`
and the focus on the channel list. -/
def onConnected (s : Session) (self : User) : Session :=
  ((({ s with currentUser := some self }.emit .selectFirstChannel).emit .focusChannelList).emit
    .render)

/-- The listener `messageInput.on('submit', ...)`. -/
def onSubmit (s : Session) (text : Str) : Except Thrown Session :=
  let next := getNextId s.id
  let id := next.1
  let s1 : Session := { s with id := next.2 }
  let s2 := (s1.emit .clearValue).emit .focusInput
  let s3 := s2.emit (.scrollTo (s2.lines.length * SCROLL_PER_MESSAGE))
  match s3.currentUser with
  | none => .error ⟨.typeError, s3⟩
  | some cu =>
    let s4 : Session := { s3 with lines := insertBottom (pendingLine cu.name text id) s3.lines }
    let s5 := (s4.emit (.scroll SCROLL_PER_MESSAGE)).emit .render
    .ok (s5.emit (.send
      { id := id, type := messageType, channel := s5.currentChannelId, text := text }))

/-- The success branch of the callback of `slack.getUsers`. -/
def onUsers (s : Session) (members : List User) : Except Thrown Session :=
  match s.currentUser with
  | none =>
    match members.find? (fun user => !user.deleted) with
    | none => .ok ((({ s with users := some [] } : Session).emit (.setUserItems [])).emit .render)
    | some _ => .error ⟨.typeError, s⟩
  | some cu =>
    let users := members.filter (fun user => !user.deleted && user.id != cu.id)
    let s1 : Session := { s with users := some users }
    .ok ((s1.emit (.setUserItems (users.map (fun slackUser => slackUser.name)))).emit .render)

/-- The loop of `updateMessages` that looks an author up in `users`. -/
def lookupName : List User → Str → Option Str
  | [], _ => none
  | u :: rest, id => if id = u.id then some u.name else lookupName rest id

/-- The callback given to `map` in `updateMessages`: the text of the
message and the name of its author (`none` when the name stays `undefined`). -/
def resolveAuthor (s : Session) (message : HistoryItem) : Except Thrown (Str × Option Str) :=
  match s.users with
  | none => .error ⟨.typeError, s⟩
  | some us =>
    match s.currentUser with
    | none => .error ⟨.typeError, s⟩
    | some cu =>
      if message.user = cu.id then .ok (message.text, some cu.name)
      else .ok (message.text, lookupName us message.user)

/-- The line `{bold}${message.username}{/bold}: ${message.text}` for a mapped
history entry. -/
def historyLine (m : Str × Option Str) : Str :=
  chatLine (m.2.getD undefinedText) m.1

/-- The call `.map(...)` of `updateMessages`: the callback is applied to the
entries in order and the first exception ends the call. -/
def mapAuthors (s : Session) : List HistoryItem → Except Thrown (List (Str × Option Str))
  | [] => .ok []
  | message :: rest =>
    match resolveAuthor s message with
    | .error e => .error e
    | .ok m =>
      match mapAuthors s rest with
      | .error e => .error e
      | .ok ms => .ok (m :: ms)

/-- The test `item.type === 'message'`. -/
def isMessage (item : HistoryItem) : Bool := item.type == some messageType

/-- The function `updateMessages`. -/
def updateMessages (s : Session) (messages : List HistoryItem) (markFn : MarkFn) :
    Except Thrown Session :=
  let s1 : Session := { s with lines := deleteTop s.lines }
  match mapAuthors s1 (messages.filter isMessage) with
  | .error e => .error e
  | .ok mapped =>
    let s2 : Session :=
      { s1 with lines := mapped.foldl (fun ls m => unshiftLine (historyLine m) ls) s1.lines }
    let s3 : Session :=
      match messages with
      | [] => s2
      | newest :: _ => s2.emit (.mark markFn s2.currentChannelId newest.ts)
    let s4 := s3.emit .clearValue
    let s5 := s4.emit (.scrollTo (s4.lines.length * SCROLL_PER_MESSAGE))
    .ok ((s5.emit .focusInput).emit .render)

/-- The code shared by the two `select` listeners before the request is sent:
title, loading line, repaint. -/
def showLoading (s : Session) (name : Str) : Session :=
  (({ s with lines := setContent loadingLine } : Session).emit (.setTitle (boldText name))).emit
    .render

/-! ## The session as a transition system -/

/-- The session together with the requests whose callbacks have not run yet:
`joinChannel` requests by channel name, `openIm` requests by user id, and
history requests by the conversation id they were made for and the read-marker
function their callback passes to `updateMessages`. -/
structure World where
  session : Session
  joins : List Str
  opens : List Str
  fetches : List (Str × MarkFn)
deriving DecidableEq, Repr

/-- The events the handlers of `main.js` react to. -/
inductive Event where
  | connected (self : User)
  | usersLoaded (members : List User)
  | submit (text : Str)
  | wsMessage (m : RtmMessage)
  | selectChannel (name : Str)
  | joined (name : Str) (id : Str)
  | selectUser (name : Str)
  | imOpened (userId : Str) (id : Str)
  | history (id : Str) (f : MarkFn) (page : List HistoryItem)
deriving DecidableEq, Repr

/-- The world when the module has just been loaded. -/
def World.initial : World :=
  { session := Session.initial, joins := [], opens := [], fetches := [] }

/-- Whether an event can happen: the listeners of the websocket and of the
input box, and the roster request, exist once `slack.init` has called back; a
callback runs only for a request that is waiting for it. -/
def enabled (w : World) : Event → Bool
  | .connected _ => w.session.currentUser.isNone
  | .usersLoaded _ => w.session.currentUser.isSome
  | .submit _ => w.session.currentUser.isSome
  | .wsMessage _ => w.session.currentUser.isSome
  | .selectChannel _ => true
  | .joined name _ => decide (name ∈ w.joins)
  | .selectUser _ => true
  | .imOpened userId _ => decide (userId ∈ w.opens)
  | .history id f _ => decide ((id, f) ∈ w.fetches)

/-- Put a handler result back into the world. -/
def World.withSession (w : World) (r : Except Thrown Session) : Except Thrown World :=
  match r with
  | .ok s => .ok { w with session := s }
  | .error e => .error e

/-- The reaction of `main.js` to one event. -/
def fire (w : World) : Event → Except Thrown World
  | .connected self => .ok { w with session := onConnected w.session self }
  | .usersLoaded members => w.withSession (onUsers w.session members)
  | .submit text => w.withSession (onSubmit w.session text)
  | .wsMessage m => w.withSession (onWsMessage w.session m)
  | .selectChannel name =>
    .ok { w with session := showLoading w.session name, joins := w.joins ++ [name] }
  | .joined name id =>
    .ok { w with
      session := { w.session with currentChannelId := some id }
      joins := w.joins.erase name
      fetches := w.fetches ++ [(id, MarkFn.markChannel)] }
  | .selectUser name =>
    let s1 := showLoading w.session name
    match s1.users with
    | none => .error ⟨.typeError, s1⟩
    | some us =>
      match us.find? (fun potentialUser => potentialUser.name == name) with
      | none => .error ⟨.typeError, s1⟩
      | some user => .ok { w with session := s1, opens := w.opens ++ [user.id] }
  | .imOpened userId id =>
    .ok { w with
      session := { w.session with currentChannelId := some id }
      opens := w.opens.erase userId
      fetches := w.fetches ++ [(id, MarkFn.markIm)] }
  | .history id f page =>
    match updateMessages w.session page f with
    | .ok s => .ok { w with session := s, fetches := w.fetches.erase (id, f) }
    | .error e => .error e

/-- Run a list of events, one after the other; `none` when an event cannot
happen or a handler raises an exception. -/
def run : World → List Event → Option World
  | w, [] => some w
  | w, e :: es =>
    if enabled w e then
      match fire w e with
      | .ok w1 => run w1 es
      | .error _ => none
    else none

/-- The ids returned by `k` successive calls of `getNextId`, starting from a
counter value. -/
def getNextIdCalls : Nat → Nat → List Nat
  | 0, _ => []
  | k + 1, id => (getNextId id).1 :: getNextIdCalls k (getNextId id).2

/-- The payloads handed to `ws.send`, oldest first. -/
def sentPayloads : List Effect → List Payload
  | [] => []
  | .send p :: rest => p :: sentPayloads rest
  | _ :: rest => sentPayloads rest

/-- The read-marker calls, oldest first. -/
def markCalls : List Effect → List (MarkFn × Option Str × Nat)
  | [] => []
  | .mark f c ts :: rest => (f, c, ts) :: markCalls rest
  | _ :: rest => markCalls rest

/-- The line `updateMessages` shows for a history entry when the roster is
`users` and the operator is `cu`. -/
def renderedLine (users : List User) (cu : User) (message : HistoryItem) : Str :=
  historyLine (message.text,
    if message.user = cu.id then some cu.name else lookupName users message.user)

/-! ## Example data -/

/-- The local operator of the examples: id `U0`, name `me`. -/
def exOperator : User := ⟨['U', '0'], ['m', 'e'], false⟩

/-- A roster member of the examples: id `U1`, name `Alice`. -/
def exAlice : User := ⟨['U', '1'], ['A', 'l', 'i', 'c', 'e'], false⟩

/-- The text `hello`. -/
def exHello : Str := ['h', 'e', 'l', 'l', 'o']

/-- The text `hi`. -/
def exHi : Str := ['h', 'i']

/-- The conversation id `C1`. -/
def exC1 : Str := ['C', '1']

/-- The conversation id `C2`. -/
def exC2 : Str := ['C', '2']

/-- The acknowledgment `{reply_to: n, ok: ok}`. -/
def exAck (n : Nat) (ok : Bool) : RtmMessage :=
  { reply_to := some n, ok := ok, type := none, channel := none, user := [], text := [] }

/-- The session reached by a list of events from the start (the start itself
when the list cannot be run). -/
def sessionAfter (events : List Event) : Session :=
  ((run World.initial events).map (fun w => w.session)).getD Session.initial

/-- The world right after the operator has connected. -/
def exConnected : World :=
  { World.initial with session := onConnected Session.initial exOperator }

/-- A session in which the operator `me` has connected, the roster holds
`Alice`, the conversation `C1` is open and the loading line is shown. -/
def exReady : Session :=
  { users := some [exAlice], currentUser := some exOperator, currentChannelId := some exC1,
    id := 0, lines := [loadingLine], log := [] }

/-- The history entry `{type: 'message', user: 'U1', text: 'hi', ts: 1}`. -/
def exHiItem : HistoryItem :=
  { type := some messageType, user := exAlice.id, text := exHi, ts := 1 }

/-- The history entry `{user: 'U1', text: 'hi', ts: 1}`, which has no `type`. -/
def exUntypedItem : HistoryItem :=
  { type := none, user := exAlice.id, text := exHi, ts := 1 }

/-- A history entry of another type, `{type: 'pin', user: 'U1', text: 'hi', ts: 9}`. -/
def exPinItem : HistoryItem :=
  { type := some ['p', 'i', 'n'], user := exAlice.id, text := exHi, ts := 9 }

/-- The history entry `{type: 'message', user: 'U0', text: 'hello', ts: 0}`,
written by the operator. -/
def exOwnItem : HistoryItem :=
  { type := some messageType, user := exOperator.id, text := exHello, ts := 0 }

/-- The transcript lines and the read-marker calls of a handler result. -/
def linesAndMarks (r : Except Thrown Session) :
    Option (List Str × List (MarkFn × Option Str × Nat)) :=
  match r with
  | .ok s => some (s.lines, markCalls s.log)
  | .error _ => none

/-- The channel name `general`. -/
def exGeneral : Str := ['g', 'e', 'n', 'e', 'r', 'a', 'l']

/-- The channel name `random`. -/
def exRandom : Str := ['r', 'a', 'n', 'd', 'o', 'm']

/-- The operator connects, the roster arrives, the operator selects `general`
and the join completes with the conversation id `C1`. -/
def exOpenGeneral : List Event :=
  [.connected exOperator, .usersLoaded [exOperator, exAlice], .selectChannel exGeneral,
    .joined exGeneral exC1]

/-- After `exOpenGeneral`, while the history of `C1` is still being fetched,
the operator selects `random` and the join completes with the id `C2`. -/
def exSwitched : List Event :=
  exOpenGeneral ++ [.selectChannel exRandom, .joined exRandom exC2]

/-- The world reached by a list of events from the start (the start itself
when the list cannot be run). -/
def worldAfter (events : List Event) : World :=
  (run World.initial events).getD World.initial

/-- What the stale-history example observes of a world: the current
conversation, the transcript, the read-marker calls and the history requests
still waiting. -/
def observe (w : Option World) :
    Option (Option Str × List Str × List (MarkFn × Option Str × Nat) × List (Str × MarkFn)) :=
  w.map (fun w => (w.session.currentChannelId, w.session.lines, markCalls w.session.log,
    w.fetches))

/-- A new-message event `{type: 'message', channel, user, text}`. -/
def exNewMessage (channel user text : Str) : RtmMessage :=
  { reply_to := none, ok := false, type := some messageType, channel := some channel,
    user := user, text := text }

/-- The roster never holds the operator: `users` is loaded only after the
operator is known and no member of it has the operator's id. -/
def RosterOk (s : Session) : Prop :=
  (s.currentUser = none → s.users = none) ∧
    ∀ us cu, s.users = some us → s.currentUser = some cu → ∀ u ∈ us, u.id ≠ cu.id

/-- The operator connects, submits `hello` (id 1), the acknowledgment for id 1
arrives, and the operator submits `hello` nine more times (ids 2 to 10). -/
def exDuplicateAck : List Event :=
  [.connected exOperator, .submit exHello, .wsMessage (exAck 1 true)] ++
    List.replicate 9 (.submit exHello)

/-- The operator connects and submits `hello` twelve times (ids 1 to 12). -/
def exTwelveSubmits : List Event :=
  .connected exOperator :: List.replicate 12 (.submit exHello)

/-- The operator connects and submits `hello` ten times. -/
def exTenSubmits : List Event :=
  .connected exOperator :: List.replicate 10 (.submit exHello)

/-! ## Lemmas on the chat window and on the scan -/

theorem insertLine_deleteLine (i : Nat) (x : Str) (ls : List Str) (h : i < ls.length) :
    insertLine i x (deleteLine i ls) = ls.set i x := by
  unfold insertLine deleteLine
  induction ls generalizing i with
  | nil => simp at h
  | cons a as ih =>
    cases i with
    | zero => simp
    | succ j =>
      have hj : j < as.length := by simpa using h
      simpa using ih j hj

theorem tagOf_le_nine (line : Str) (d : Nat) (h : tagOf line = some d) : d ≤ 9 := by
  unfold tagOf parseIntChar at h
  split at h
  · cases h
  · rename_i c _
    split at h
    · rename_i hc
      have hd : d = c.toNat - 48 := by
        cases h
        rfl
      have h2 : c.val ≤ 57 := by
        simp only [Char.isDigit, Bool.and_eq_true, decide_eq_true_eq] at hc
        exact hc.2
      have h3 : c.toNat ≤ 57 := by
        have := UInt32.le_def.mp h2
        simpa [Char.toNat] using this
      omega
    · cases h

theorem tagMatches_of_ten_le (line : Str) (n : Nat) (h : 10 ≤ n) :
    tagMatches line (some n) = false := by
  unfold tagMatches
  cases ht : tagOf line with
  | none => rfl
  | some d =>
    have := tagOf_le_nine line d ht
    simp only [beq_eq_false_iff_ne, ne_eq]
    omega

theorem scanPending_none (lines : List Str) (r : Option Nat) (n : Nat)
    (h : ∀ j, j < n → tagMatches (lines.getD j []) r = false) :
    scanPending lines r n = none := by
  induction n with
  | zero => rfl
  | succ k ih =>
    have hk := h k (Nat.lt_succ_self k)
    simp only [scanPending, hk]
    exact ih (fun j hj => h j (Nat.lt_succ_of_lt hj))

theorem scanPending_some (lines : List Str) (r : Option Nat) (n i : Nat)
    (h : scanPending lines r n = some i) :
    i < n ∧ tagMatches (lines.getD i []) r = true ∧
      ∀ j, i < j → j < n → tagMatches (lines.getD j []) r = false := by
  induction n with
  | zero => simp [scanPending] at h
  | succ k ih =>
    unfold scanPending at h
    by_cases hk : tagMatches (lines.getD k []) r = true
    · rw [if_pos hk] at h
      have hik : k = i := by simpa using h
      subst hik
      refine ⟨Nat.lt_succ_self _, hk, ?_⟩
      intro j h1 h2
      omega
    · rw [if_neg hk] at h
      obtain ⟨h1, h2, h3⟩ := ih h
      refine ⟨Nat.lt_succ_of_lt h1, h2, ?_⟩
      intro j hj1 hj2
      by_cases hjk : j = k
      · subst hjk
        simpa using hk
      · exact h3 j hj1 (by omega)

theorem scanPending_isSome (lines : List Str) (r : Option Nat) (n k : Nat) (hk : k < n)
    (hm : tagMatches (lines.getD k []) r = true) :
    ∃ i, scanPending lines r n = some i ∧ k ≤ i := by
  cases hs : scanPending lines r n with
  | none =>
    exfalso
    induction n with
    | zero => omega
    | succ m ih =>
      unfold scanPending at hs
      by_cases hmm : tagMatches (lines.getD m []) r = true
      · rw [if_pos hmm] at hs
        cases hs
      · rw [if_neg hmm] at hs
        by_cases hkm : k = m
        · subst hkm
          exact hmm hm
        · exact ih (by omega) hs
  | some i =>
    refine ⟨i, rfl, ?_⟩
    obtain ⟨_, _, h3⟩ := scanPending_some lines r n i hs
    by_contra hlt
    have := h3 k (by omega) hk
    rw [hm] at this
    cases this

theorem handleSentConfirmation_lines (s : Session) (m : RtmMessage) :
    (handleSentConfirmation s m).lines =
      match scanPending s.lines m.reply_to s.lines.length with
      | none => s.lines
      | some i => s.lines.set i (patchedLine (s.lines.getD i []) m.ok) := by
  unfold handleSentConfirmation
  cases hs : scanPending s.lines m.reply_to s.lines.length with
  | none => simp [Session.emit, hs]
  | some i =>
    have hi := (scanPending_some _ _ _ _ hs).1
    simp [Session.emit, hs, insertLine_deleteLine _ _ _ hi]

/-! ## Lemmas on the record of outside calls -/

theorem sentPayloads_append (a b : List Effect) :
    sentPayloads (a ++ b) = sentPayloads a ++ sentPayloads b := by
  induction a with
  | nil => rfl
  | cons e rest ih => cases e <;> simp [sentPayloads, ih]

theorem markCalls_append (a b : List Effect) :
    markCalls (a ++ b) = markCalls a ++ markCalls b := by
  induction a with
  | nil => rfl
  | cons e rest ih => cases e <;> simp [markCalls, ih]

theorem getNextIdCalls_eq (k id : Nat) : getNextIdCalls k id = List.range' (id + 1) k := by
  induction k generalizing id with
  | zero => rfl
  | succ n ih => simp [getNextIdCalls, getNextId, ih, List.range'_succ]

theorem onSubmit_ok (s : Session) (cu : User) (text : Str) (h : s.currentUser = some cu) :
    onSubmit s text = .ok
      { s with
        id := s.id + 1
        lines := s.lines ++ [pendingLine cu.name text (s.id + 1)]
        log := s.log ++ [.clearValue, .focusInput, .scrollTo (s.lines.length * SCROLL_PER_MESSAGE),
          .scroll SCROLL_PER_MESSAGE, .render,
          .send { id := s.id + 1, type := messageType, channel := s.currentChannelId,
                  text := text }] } := by
  simp [onSubmit, getNextId, Session.emit, h, insertBottom]

theorem run_submits (w : World) (cu : User) (h : w.session.currentUser = some cu)
    (texts : List Str) :
    ∃ w1, run w (texts.map Event.submit) = some w1 ∧
      w1.session.currentUser = some cu ∧
      (sentPayloads w1.session.log).map (fun p => p.id) =
        (sentPayloads w.session.log).map (fun p => p.id) ++
          getNextIdCalls texts.length w.session.id := by
  induction texts generalizing w with
  | nil => exact ⟨w, rfl, h, by simp [getNextIdCalls]⟩
  | cons t rest ih =>
    have hen : enabled w (.submit t) = true := by simp [enabled, h]
    have hf := onSubmit_ok w.session cu t h
    obtain ⟨w1, h1, h2, h3⟩ := ih
      { w with session :=
        { w.session with
          id := w.session.id + 1
          lines := w.session.lines ++ [pendingLine cu.name t (w.session.id + 1)]
          log := w.session.log ++ [.clearValue, .focusInput,
            .scrollTo (w.session.lines.length * SCROLL_PER_MESSAGE),
            .scroll SCROLL_PER_MESSAGE, .render,
            .send { id := w.session.id + 1, type := messageType,
                    channel := w.session.currentChannelId, text := t }] } } h
    refine ⟨w1, ?_, h2, ?_⟩
    · simp only [List.map_cons, run, hen, if_true, fire, hf, World.withSession]
      exact h1
    · rw [h3]
      simp [sentPayloads_append, sentPayloads, getNextIdCalls, getNextId]

theorem handleSentConfirmation_quiet (s : Session) (m : RtmMessage) :
    (handleSentConfirmation s m).id = s.id ∧
      sentPayloads (handleSentConfirmation s m).log = sentPayloads s.log := by
  unfold handleSentConfirmation
  cases hs : scanPending s.lines m.reply_to s.lines.length with
  | none => simp [hs, Session.emit, sentPayloads_append, sentPayloads]
  | some i => simp [hs, Session.emit, sentPayloads_append, sentPayloads]

theorem handleNewMessage_quiet (s s1 : Session) (m : RtmMessage)
    (h : handleNewMessage s m = .ok s1) :
    s1.id = s.id ∧ sentPayloads s1.log = sentPayloads s.log := by
  unfold handleNewMessage at h
  split at h
  · cases h
    exact ⟨rfl, rfl⟩
  · split at h
    · cases h
    · split at h
      · cases h
      · cases h
        simp [Session.emit, sentPayloads_append, sentPayloads]

theorem onWsMessage_quiet (s s1 : Session) (m : RtmMessage) (h : onWsMessage s m = .ok s1) :
    s1.id = s.id ∧ sentPayloads s1.log = sentPayloads s.log := by
  unfold onWsMessage at h
  split at h
  · cases h
    exact handleSentConfirmation_quiet s m
  · split at h
    · exact handleNewMessage_quiet s s1 m h
    · cases h
      exact ⟨rfl, rfl⟩

theorem onUsers_quiet (s s1 : Session) (members : List User) (h : onUsers s members = .ok s1) :
    s1.id = s.id ∧ sentPayloads s1.log = sentPayloads s.log := by
  unfold onUsers at h
  split at h
  · split at h
    · cases h
      simp [Session.emit, sentPayloads_append, sentPayloads]
    · cases h
  · cases h
    simp [Session.emit, sentPayloads_append, sentPayloads]

theorem updateMessages_quiet (s s1 : Session) (page : List HistoryItem) (f : MarkFn)
    (h : updateMessages s page f = .ok s1) :
    s1.id = s.id ∧ sentPayloads s1.log = sentPayloads s.log := by
  unfold updateMessages at h
  cases hm : mapAuthors { s with lines := deleteTop s.lines } (page.filter isMessage) with
  | error e =>
    simp only [hm] at h
    cases h
  | ok mapped =>
    simp only [hm] at h
    cases page with
    | nil =>
      cases h
      simp [Session.emit, sentPayloads_append, sentPayloads]
    | cons m rest =>
      cases h
      simp [Session.emit, sentPayloads_append, sentPayloads]

theorem showLoading_quiet (s : Session) (name : Str) :
    (showLoading s name).id = s.id ∧
      sentPayloads (showLoading s name).log = sentPayloads s.log := by
  simp [showLoading, Session.emit, sentPayloads_append, sentPayloads]

theorem fire_sent_bound (w w1 : World) (e : Event) (hf : fire w e = .ok w1)
    (hinv : ∀ q ∈ sentPayloads w.session.log, q.id ≤ w.session.id) :
    ∀ q ∈ sentPayloads w1.session.log, q.id ≤ w1.session.id := by
  have key : ∀ s1 : Session, (s1.id = w.session.id ∧
      sentPayloads s1.log = sentPayloads w.session.log) →
      ∀ q ∈ sentPayloads s1.log, q.id ≤ s1.id := by
    intro s1 hq q hmem
    rw [hq.2] at hmem
    rw [hq.1]
    exact hinv q hmem
  cases e with
  | connected self =>
    simp only [fire, Except.ok.injEq] at hf
    subst hf
    exact key _ (by simp [onConnected, Session.emit, sentPayloads_append, sentPayloads])
  | usersLoaded members =>
    simp only [fire, World.withSession] at hf
    split at hf
    · rename_i s1 hs
      cases hf
      exact key _ (onUsers_quiet _ _ _ hs)
    · cases hf
  | submit text =>
    simp only [fire, World.withSession] at hf
    split at hf
    · rename_i s1 hs
      cases hf
      cases hcu : w.session.currentUser with
      | none =>
        simp [onSubmit, Session.emit, hcu] at hs
      | some cu =>
        rw [onSubmit_ok _ cu _ hcu] at hs
        cases hs
        intro q hq
        simp only [sentPayloads_append, List.mem_append] at hq
        rcases hq with hq | hq
        · exact Nat.le_succ_of_le (hinv q hq)
        · simp [sentPayloads] at hq
          subst hq
          exact Nat.le_refl _
    · cases hf
  | wsMessage m =>
    simp only [fire, World.withSession] at hf
    split at hf
    · rename_i s1 hs
      cases hf
      exact key _ (onWsMessage_quiet _ _ _ hs)
    · cases hf
  | selectChannel name =>
    simp only [fire, Except.ok.injEq] at hf
    subst hf
    exact key _ (showLoading_quiet _ _)
  | joined name id =>
    simp only [fire, Except.ok.injEq] at hf
    subst hf
    exact key _ ⟨rfl, rfl⟩
  | selectUser name =>
    simp only [fire] at hf
    split at hf
    · cases hf
    · split at hf
      · cases hf
      · cases hf
        exact key _ (showLoading_quiet _ _)
  | imOpened userId id =>
    simp only [fire, Except.ok.injEq] at hf
    subst hf
    exact key _ ⟨rfl, rfl⟩
  | history id f page =>
    simp only [fire] at hf
    split at hf
    · rename_i s1 hs
      cases hf
      exact key _ (updateMessages_quiet _ _ _ _ hs)
    · cases hf

theorem run_sent_bound (w w1 : World) (events : List Event) (hr : run w events = some w1)
    (hinv : ∀ q ∈ sentPayloads w.session.log, q.id ≤ w.session.id) :
    ∀ q ∈ sentPayloads w1.session.log, q.id ≤ w1.session.id := by
  induction events generalizing w with
  | nil =>
    simp only [run, Option.some.injEq] at hr
    subst hr
    exact hinv
  | cons e rest ih =>
    unfold run at hr
    split at hr
    · split at hr
      · rename_i w2 hf
        exact ih w2 hr (fire_sent_bound w w2 e hf hinv)
      · cases hr
    · cases hr

/-! ## Lemmas on `updateMessages` -/

theorem mapAuthors_ok (s : Session) (us : List User) (cu : User) (hu : s.users = some us)
    (hc : s.currentUser = some cu) (ms : List HistoryItem) :
    mapAuthors s ms = .ok (ms.map (fun m =>
      (m.text, if m.user = cu.id then some cu.name else lookupName us m.user))) := by
  induction ms with
  | nil => rfl
  | cons m rest ih =>
    unfold mapAuthors
    rw [ih]
    by_cases hm : m.user = cu.id <;> simp [resolveAuthor, hu, hc, hm]

theorem foldl_unshiftLine {α : Type} (g : α → Str) (xs : List α) (acc : List Str) :
    xs.foldl (fun ls m => unshiftLine (g m) ls) acc = (xs.map g).reverse ++ acc := by
  induction xs generalizing acc with
  | nil => rfl
  | cons x rest ih =>
    rw [List.foldl_cons, ih]
    simp [unshiftLine]

theorem updateMessages_ok (s : Session) (us : List User) (cu : User) (page : List HistoryItem)
    (f : MarkFn) (hu : s.users = some us) (hc : s.currentUser = some cu) :
    ∃ s1, updateMessages s page f = .ok s1 ∧
      s1.lines = ((page.filter isMessage).map (renderedLine us cu)).reverse ++ deleteTop s.lines ∧
      s1.log = s.log ++ (page.head?.map (fun m => Effect.mark f s.currentChannelId m.ts)).toList ++
        [.clearValue, .scrollTo (s1.lines.length * SCROLL_PER_MESSAGE), .focusInput, .render] ∧
      s1.users = s.users ∧ s1.currentUser = s.currentUser ∧
      s1.currentChannelId = s.currentChannelId ∧ s1.id = s.id := by
  have hmap := mapAuthors_ok { s with lines := deleteTop s.lines } us cu hu hc
    (page.filter isMessage)
  unfold updateMessages
  simp only [hmap]
  refine ⟨_, rfl, ?_, ?_, ?_⟩
  · cases page with
    | nil => simp [Session.emit, deleteTop]
    | cons m rest =>
      simp only [Session.emit, foldl_unshiftLine, List.map_map]
      rfl
  · cases page with
    | nil => simp [Session.emit]
    | cons m rest => simp [Session.emit]
  · cases page <;> simp [Session.emit]

/-! ## Lemmas on the roster -/

theorem handleSentConfirmation_roster (s : Session) (m : RtmMessage) :
    (handleSentConfirmation s m).users = s.users ∧
      (handleSentConfirmation s m).currentUser = s.currentUser := by
  unfold handleSentConfirmation
  cases hs : scanPending s.lines m.reply_to s.lines.length with
  | none => simp [hs, Session.emit]
  | some i => simp [hs, Session.emit]

theorem handleNewMessage_roster (s s1 : Session) (m : RtmMessage)
    (h : handleNewMessage s m = .ok s1) :
    s1.users = s.users ∧ s1.currentUser = s.currentUser := by
  unfold handleNewMessage at h
  split at h
  · cases h
    exact ⟨rfl, rfl⟩
  · split at h
    · cases h
    · split at h
      · cases h
      · cases h
        simp [Session.emit]

theorem onWsMessage_roster (s s1 : Session) (m : RtmMessage) (h : onWsMessage s m = .ok s1) :
    s1.users = s.users ∧ s1.currentUser = s.currentUser := by
  unfold onWsMessage at h
  split at h
  · cases h
    exact handleSentConfirmation_roster s m
  · split at h
    · exact handleNewMessage_roster s s1 m h
    · cases h
      exact ⟨rfl, rfl⟩

theorem updateMessages_roster (s s1 : Session) (page : List HistoryItem) (f : MarkFn)
    (h : updateMessages s page f = .ok s1) :
    s1.users = s.users ∧ s1.currentUser = s.currentUser := by
  unfold updateMessages at h
  cases hm : mapAuthors { s with lines := deleteTop s.lines } (page.filter isMessage) with
  | error e =>
    simp only [hm] at h
    cases h
  | ok mapped =>
    simp only [hm] at h
    cases page with
    | nil =>
      cases h
      simp [Session.emit]
    | cons m rest =>
      cases h
      simp [Session.emit]

theorem showLoading_roster (s : Session) (name : Str) :
    (showLoading s name).users = s.users ∧
      (showLoading s name).currentUser = s.currentUser := by
  simp [showLoading, Session.emit]

theorem RosterOk_of_same (s s1 : Session)
    (h : s1.users = s.users ∧ s1.currentUser = s.currentUser) (hs : RosterOk s) :
    RosterOk s1 := by
  unfold RosterOk at *
  rw [h.1, h.2]
  exact hs

theorem fire_rosterOk (w w1 : World) (e : Event) (he : enabled w e = true)
    (hf : fire w e = .ok w1) (hinv : RosterOk w.session) : RosterOk w1.session := by
  cases e with
  | connected self =>
    simp only [fire, Except.ok.injEq] at hf
    subst hf
    have hnone : w.session.currentUser = none := by simpa [enabled] using he
    have hu := hinv.1 hnone
    constructor
    · intro h
      simp [onConnected, Session.emit] at h
    · intro us cu hus _
      simp [onConnected, Session.emit, hu] at hus
  | usersLoaded members =>
    simp only [fire, World.withSession] at hf
    split at hf
    · rename_i s1 hs
      cases hf
      cases hcu : w.session.currentUser with
      | none => simp [enabled, hcu] at he
      | some cu =>
        simp only [onUsers, hcu, Except.ok.injEq] at hs
        subst hs
        constructor
        · intro h
          simp [Session.emit, hcu] at h
        · intro us cu1 hus hcu1 u hu
          simp only [Session.emit, hcu, Option.some.injEq] at hus hcu1
          subst hus hcu1
          simp only [List.mem_filter, Bool.and_eq_true, bne_iff_ne, ne_eq] at hu
          exact hu.2.2
    · cases hf
  | submit text =>
    simp only [fire, World.withSession] at hf
    split at hf
    · rename_i s1 hs
      cases hf
      cases hcu : w.session.currentUser with
      | none => simp [enabled, hcu] at he
      | some cu =>
        rw [onSubmit_ok _ cu _ hcu] at hs
        cases hs
        exact RosterOk_of_same _ _ ⟨rfl, rfl⟩ hinv
    · cases hf
  | wsMessage m =>
    simp only [fire, World.withSession] at hf
    split at hf
    · rename_i s1 hs
      cases hf
      exact RosterOk_of_same _ _ (onWsMessage_roster _ _ _ hs) hinv
    · cases hf
  | selectChannel name =>
    simp only [fire, Except.ok.injEq] at hf
    subst hf
    exact RosterOk_of_same _ _ (showLoading_roster _ _) hinv
  | joined name id =>
    simp only [fire, Except.ok.injEq] at hf
    subst hf
    exact RosterOk_of_same _ _ ⟨rfl, rfl⟩ hinv
  | selectUser name =>
    simp only [fire] at hf
    split at hf
    · cases hf
    · split at hf
      · cases hf
      · cases hf
        exact RosterOk_of_same _ _ (showLoading_roster _ _) hinv
  | imOpened userId id =>
    simp only [fire, Except.ok.injEq] at hf
    subst hf
    exact RosterOk_of_same _ _ ⟨rfl, rfl⟩ hinv
  | history id f page =>
    simp only [fire] at hf
    split at hf
    · rename_i s1 hs
      cases hf
      exact RosterOk_of_same _ _ (updateMessages_roster _ _ _ _ hs) hinv
    · cases hf

theorem run_rosterOk (w w1 : World) (events : List Event) (hr : run w events = some w1)
    (hinv : RosterOk w.session) : RosterOk w1.session := by
  induction events generalizing w with
  | nil =>
    simp only [run, Option.some.injEq] at hr
    subst hr
    exact hinv
  | cons e rest ih =>
    unfold run at hr
    split at hr
    · rename_i hen
      split at hr
      · rename_i w2 hf
        exact ih w2 hr (fire_rosterOk w w2 e hen hf hinv)
      · cases hr
    · cases hr

theorem handleNewMessage_not_found (s : Session) (m : RtmMessage)
    (hch : m.channel = s.currentChannelId)
    (hno : ∀ us, s.users = some us → ∀ u ∈ us, u.id ≠ m.user) :
    handleNewMessage s m = .error ⟨.typeError, s⟩ := by
  unfold handleNewMessage
  rw [if_neg (by simpa using hch)]
  cases hu : s.users with
  | none => rfl
  | some us =>
    have hfind : us.find? (fun user => m.user == user.id) = none := by
      rw [List.find?_eq_none]
      intro u hmem
      have := hno us hu u hmem
      simpa using fun h => this h.symm
    simp only [hfind]

/-! ## Lemmas on the pending marker -/

theorem isPrefixOf_marker_of_ne (c : Char) (rest : Str) (h : c ≠ '(') :
    pendingMarker.isPrefixOf (c :: rest) = false := by
  simp [pendingMarker, List.isPrefixOf, h]
  intro hc
  exact absurd hc.symm h

theorem splitGo_no_paren (pre cur rest : Str) (h : '(' ∉ pre) :
    splitGo pendingMarker 0 cur (pre ++ rest) =
      splitGo pendingMarker 0 (pre.reverse ++ cur) rest := by
  induction pre generalizing cur with
  | nil => rfl
  | cons c tl ih =>
    have hc : c ≠ '(' := fun e => h (by simp [e])
    have ht : '(' ∉ tl := fun e => h (by simp [e])
    rw [List.cons_append, splitGo, isPrefixOf_marker_of_ne c _ hc]
    simp only [Bool.false_eq_true, if_false]
    rw [ih _ ht]
    simp

theorem splitGo_end (pre cur : Str) (h : '(' ∉ pre) :
    splitGo pendingMarker 0 cur pre = [cur.reverse ++ pre] := by
  have := splitGo_no_paren pre cur [] h
  rw [List.append_nil] at this
  rw [this]
  simp [splitGo]

theorem jsSplit_one_marker (pre post : Str) (h1 : '(' ∉ pre) (h2 : '(' ∉ post) :
    jsSplit pendingMarker (pre ++ pendingMarker ++ post) = [pre, post] := by
  unfold jsSplit
  rw [List.append_assoc, splitGo_no_paren pre [] _ h1]
  have h3 := splitGo_end post [] h2
  simp only [List.reverse_nil, List.nil_append] at h3
  simp [pendingMarker, splitGo, List.isPrefixOf]
  simpa [pendingMarker] using h3

theorem numberText_digit (n : Nat) (hn : n ≤ 9) :
    '(' ∉ numberText n ++ [')'] ∧
      (numberText n ++ [')']).head? = some (Char.ofNat (48 + n)) := by
  interval_cases n <;> decide

theorem pendingLine_patch (name text : Str) (n : Nat) (ok : Bool) (hn : n ≤ 9)
    (h1 : '(' ∉ name) (h2 : '(' ∉ text) :
    tagOf (pendingLine name text n) = some n ∧
      patchedLine (pendingLine name text n) ok =
        chatLine name text ++ [' '] ++ (if ok then [] else failedSuffix) := by
  have hpre : '(' ∉ chatLine name text ++ [' '] := by
    simp [chatLine, boldText, h1, h2]
  obtain ⟨hpost, hhead⟩ := numberText_digit n hn
  have hline : pendingLine name text n =
      (chatLine name text ++ [' ']) ++ pendingMarker ++ (numberText n ++ [')']) := by
    simp [pendingLine]
  have hsplit := jsSplit_one_marker _ _ hpre hpost
  rw [← hline] at hsplit
  constructor
  · unfold tagOf
    rw [hsplit]
    simp only [List.getLast?_cons_cons, List.getLast?_singleton, Option.some_bind, hhead]
    interval_cases n <;> decide
  · unfold patchedLine
    rw [hsplit]
    cases ok <;> simp

/-- What the code does deliver for the ids 1 to 9: when the name and the text
hold no `(`, and no line below the pending line of id `n` carries the tag `n`,
the acknowledgment replaces that very line by the text without marker, with
` (FAILED)` added once when `ok` is false, and leaves the other lines alone. -/
theorem handleSentConfirmation_single_digit (s : Session) (message : RtmMessage)
    (above below : List Str) (name text : Str) (n : Nat)
    (hn : n ≤ 9) (h1 : '(' ∉ name) (h2 : '(' ∉ text)
    (hr : message.reply_to = some n)
    (hl : s.lines = above ++ pendingLine name text n :: below)
    (hb : ∀ l ∈ below, tagMatches l (some n) = false) :
    (handleSentConfirmation s message).lines =
      above ++ (chatLine name text ++ [' '] ++ (if message.ok then [] else failedSuffix)) ::
        below := by
  obtain ⟨htag, hpatch⟩ := pendingLine_patch name text n message.ok hn h1 h2
  have hk : above.length < s.lines.length := by
    rw [hl]
    simp
  have hget : s.lines.getD above.length [] = pendingLine name text n := by
    rw [hl, List.getD_eq_getElem?_getD, List.getElem?_append_right (Nat.le_refl _)]
    simp
  have hmatch : tagMatches (s.lines.getD above.length []) message.reply_to = true := by
    rw [hget, hr]
    simp [tagMatches, htag]
  obtain ⟨i, hi, hki⟩ := scanPending_isSome s.lines message.reply_to s.lines.length
    above.length hk hmatch
  obtain ⟨hlt, hmi, _⟩ := scanPending_some _ _ _ _ hi
  have hik : i = above.length := by
    by_contra hne
    have hgt : above.length < i := by omega
    have hmem : s.lines.getD i [] ∈ below := by
      rw [hl] at hlt ⊢
      simp only [List.length_append, List.length_cons] at hlt
      rw [List.getD_eq_getElem?_getD, List.getElem?_append_right (by omega)]
      obtain ⟨d, hd⟩ : ∃ d, i - above.length = d + 1 := ⟨i - above.length - 1, by omega⟩
      rw [hd, List.getElem?_cons_succ]
      have hdl : d < below.length := by omega
      rw [List.getElem?_eq_getElem hdl]
      simp
    have := hb _ hmem
    rw [hr] at hmi
    rw [hmi] at this
    cases this
  rw [handleSentConfirmation_lines, hi, hik]
  simp only [hget, hpatch]
  rw [hl]
  simp

/-! ## Properties -/

/-- C4: a new-message event whose channel is not `currentChannelId` leaves the
whole session as it is: no transcript line changes and no scroll or repaint is
recorded, whatever `users` holds (loaded or not); the websocket listener
passes such an event to `handleNewMessage` and has the same result. -/
theorem handleNewMessage_other_channel (s : Session) (message : RtmMessage)
    (h : message.channel ≠ s.currentChannelId) :
    handleNewMessage s message = .ok s ∧
      (message.reply_to = none → message.type = some messageType →
        onWsMessage s message = .ok s) := by
  have h1 : handleNewMessage s message = .ok s := by
    unfold handleNewMessage
    rw [if_pos h]
  refine ⟨h1, ?_⟩
  intro hr ht
  unfold onWsMessage
  simp [hr, ht, h1]

/-- Witness of `handleNewMessage_other_channel`: the scenario of the
specification, an event for `C2` while `C1` is the current conversation and
the roster is not loaded. -/
theorem handleNewMessage_other_channel_witness :
    (some exC2 ≠ some exC1) ∧
      handleNewMessage { Session.initial with currentChannelId := some exC1 }
          { reply_to := none, ok := false, type := some messageType, channel := some exC2,
            user := exAlice.id, text := exHi } =
        .ok { Session.initial with currentChannelId := some exC1 } ∧
      ((none : Option Nat) = none → some messageType = some messageType →
        onWsMessage { Session.initial with currentChannelId := some exC1 }
            { reply_to := none, ok := false, type := some messageType, channel := some exC2,
              user := exAlice.id, text := exHi } =
          .ok { Session.initial with currentChannelId := some exC1 }) :=
  ⟨by decide,
    handleNewMessage_other_channel { Session.initial with currentChannelId := some exC1 }
      { reply_to := none, ok := false, type := some messageType, channel := some exC2,
        user := exAlice.id, text := exHi } (by decide)⟩

/-- The frame of `handleSentConfirmation`, in terms of the test the scan
applies (`tagMatches`, one digit): the number of transcript lines is kept and
at most one position changes; when no line passes the test the lines are
unchanged; when some line passes it, the line at the greatest such position is
replaced in place by its patched text and every other position keeps its
line. -/
theorem handleSentConfirmation_frame (s : Session) (message : RtmMessage) :
    (handleSentConfirmation s message).lines.length = s.lines.length ∧
      (∃ i : Nat, ∀ j : Nat, j ≠ i →
        (handleSentConfirmation s message).lines[j]? = s.lines[j]?) ∧
      ((∀ j, j < s.lines.length → tagMatches (s.lines.getD j []) message.reply_to = false) →
        (handleSentConfirmation s message).lines = s.lines) ∧
      (∀ k, k < s.lines.length → tagMatches (s.lines.getD k []) message.reply_to = true →
        ∃ i, k ≤ i ∧ i < s.lines.length ∧
          tagMatches (s.lines.getD i []) message.reply_to = true ∧
          (∀ j, i < j → j < s.lines.length →
            tagMatches (s.lines.getD j []) message.reply_to = false) ∧
          (handleSentConfirmation s message).lines[i]? =
            some (patchedLine (s.lines.getD i []) message.ok) ∧
          ∀ j, j ≠ i → (handleSentConfirmation s message).lines[j]? = s.lines[j]?) := by
  rw [handleSentConfirmation_lines]
  refine ⟨?_, ?_, ?_, ?_⟩
  · cases scanPending s.lines message.reply_to s.lines.length with
    | none => rfl
    | some i => simp
  · cases scanPending s.lines message.reply_to s.lines.length with
    | none => exact ⟨0, fun _ _ => rfl⟩
    | some i =>
      refine ⟨i, fun j hj => ?_⟩
      simp [List.getElem?_set, Ne.symm hj]
  · intro h
    rw [scanPending_none _ _ _ h]
  · intro k hk hm
    obtain ⟨i, hi, hki⟩ := scanPending_isSome _ _ _ k hk hm
    obtain ⟨h1, h2, h3⟩ := scanPending_some _ _ _ _ hi
    refine ⟨i, hki, h1, h2, h3, ?_, ?_⟩
    · rw [hi]
      simp [h1]
    · intro j hj
      rw [hi]
      simp [List.getElem?_set, Ne.symm hj]

/-- C5: the ids returned by `k` successive calls of `getNextId`, from the
start, are `1, 2, ..., k`: the call number `i + 1` returns `i + 1`, the ids are
strictly increasing and pairwise distinct; and when the operator connects and
submits any texts, the payloads sent carry exactly these ids, in this order. -/
theorem getNextId_kth_call (k : Nat) :
    getNextIdCalls k 0 = List.range' 1 k ∧
      (∀ i, i < k → (getNextIdCalls k 0)[i]? = some (i + 1)) ∧
      (getNextIdCalls k 0).Pairwise (fun a b => a < b) ∧
      (getNextIdCalls k 0).Nodup ∧
      ∀ (self : User) (texts : List Str), texts.length = k →
        ∃ w, run World.initial (.connected self :: texts.map Event.submit) = some w ∧
          (sentPayloads w.session.log).map (fun p => p.id) = getNextIdCalls k 0 := by
  have h0 : getNextIdCalls k 0 = List.range' 1 k := getNextIdCalls_eq k 0
  refine ⟨h0, ?_, ?_, ?_, ?_⟩
  · intro i hi
    rw [h0, List.getElem?_range' _ _ hi]
    simp [Nat.add_comm]
  · rw [h0]
    exact List.pairwise_lt_range' 1 k
  · rw [h0]
    exact List.nodup_range' 1 k
  · intro self texts hk
    obtain ⟨w, h1, _, h3⟩ := run_submits
      { World.initial with session := onConnected Session.initial self } self rfl texts
    refine ⟨w, ?_, ?_⟩
    · simp only [run, enabled, World.initial, Session.initial, Option.isNone_none, if_true, fire]
      exact h1
    · rw [h3, hk]
      simp [onConnected, Session.emit, Session.initial, sentPayloads]

/-- C9: in every world reached from the start in which the submit listener
exists, submitting a text `t` succeeds, appends at the bottom of the transcript
the line that ends with `t (pending - id)` and then sends, as its last outside
call, a payload whose `id` is that same number, freshly returned by
`getNextId`, whose `channel` is `currentChannelId` at submit time and whose
`text` is `t`; every payload sent before has a smaller id. -/
theorem onSubmit_payload (events : List Event) (w : World) (text : Str)
    (hr : run World.initial events = some w) (he : enabled w (.submit text) = true) :
    ∃ (s1 : Session) (p : Payload) (cu : User),
      onSubmit w.session text = .ok s1 ∧
      w.session.currentUser = some cu ∧
      s1.log.getLast? = some (.send p) ∧
      sentPayloads s1.log = sentPayloads w.session.log ++ [p] ∧
      s1.lines = w.session.lines ++
        [chatLine cu.name text ++ [' '] ++ pendingMarker ++ numberText p.id ++ [')']] ∧
      p.id = (getNextId w.session.id).1 ∧
      s1.id = (getNextId w.session.id).2 ∧
      p.type = messageType ∧
      p.channel = w.session.currentChannelId ∧
      p.text = text ∧
      ∀ q ∈ sentPayloads w.session.log, q.id < p.id := by
  cases hcu : w.session.currentUser with
  | none => simp [enabled, hcu] at he
  | some cu =>
    have hinv := run_sent_bound World.initial w events hr
      (by simp [World.initial, Session.initial, sentPayloads])
    refine ⟨_, ⟨w.session.id + 1, messageType, w.session.currentChannelId, text⟩, cu,
      onSubmit_ok w.session cu text hcu, rfl, ?_, ?_, rfl, rfl, rfl, rfl, rfl, rfl, ?_⟩
    · simp
    · simp [sentPayloads_append, sentPayloads]
    · intro q hq
      exact Nat.lt_succ_of_le (hinv q hq)

/-- Witness of `onSubmit_payload`: the operator has connected and submits
`hello`. -/
theorem onSubmit_payload_witness :
    run World.initial [.connected exOperator] = some exConnected ∧
      enabled exConnected (.submit exHello) = true ∧
      ∃ (s1 : Session) (p : Payload) (cu : User),
        onSubmit exConnected.session exHello = .ok s1 ∧
        exConnected.session.currentUser = some cu ∧
        s1.log.getLast? = some (.send p) ∧
        sentPayloads s1.log = sentPayloads exConnected.session.log ++ [p] ∧
        s1.lines = exConnected.session.lines ++
          [chatLine cu.name exHello ++ [' '] ++ pendingMarker ++ numberText p.id ++ [')']] ∧
        p.id = (getNextId exConnected.session.id).1 ∧
        s1.id = (getNextId exConnected.session.id).2 ∧
        p.type = messageType ∧
        p.channel = exConnected.session.currentChannelId ∧
        p.text = exHello ∧
        ∀ q ∈ sentPayloads exConnected.session.log, q.id < p.id :=
  ⟨by decide, by decide,
    onSubmit_payload [.connected exOperator] exConnected exHello (by decide) (by decide)⟩

/-- C3: with the roster and the operator loaded, `updateMessages` ends with the
transcript made of the rendered message entries of the page in reverse feed
order (oldest first) followed by the former transcript without its first
line; this is the fold of `unshiftLine` over the rendered message entries in
feed order; entries of another type add no line, and for a page made of
message entries only the rendered lines are those of the whole page. -/
theorem updateMessages_order (s : Session) (us : List User) (cu : User)
    (page : List HistoryItem) (f : MarkFn)
    (hu : s.users = some us) (hc : s.currentUser = some cu) :
    ∃ s1, updateMessages s page f = .ok s1 ∧
      s1.lines = ((page.filter isMessage).map (renderedLine us cu)).reverse ++ s.lines.tail ∧
      s1.lines = (page.filter isMessage).foldl
        (fun ls m => unshiftLine (renderedLine us cu m) ls) s.lines.tail ∧
      ((∀ m ∈ page, m.type = some messageType) →
        s1.lines = (page.reverse.map (renderedLine us cu)) ++ s.lines.tail ∧
        s1.lines = page.foldl (fun ls m => unshiftLine (renderedLine us cu m) ls) s.lines.tail) := by
  obtain ⟨s1, h1, h2, _⟩ := updateMessages_ok s us cu page f hu hc
  have ht : deleteTop s.lines = s.lines.tail := by simp [deleteTop]
  rw [ht] at h2
  refine ⟨s1, h1, h2, ?_, ?_⟩
  · rw [h2, foldl_unshiftLine]
  · intro hall
    have hf : page.filter isMessage = page := by
      rw [List.filter_eq_self]
      intro m hm
      simp [isMessage, hall m hm]
    rw [hf] at h2
    refine ⟨?_, ?_⟩
    · rw [h2, List.map_reverse]
    · rw [h2, foldl_unshiftLine]

/-- Witness of `updateMessages_order`: the page `hi` by Alice (newest) and
`hello` by the operator (older) merged under the loading line. -/
theorem updateMessages_order_witness :
    exReady.users = some [exAlice] ∧ exReady.currentUser = some exOperator ∧
      (∃ s1, updateMessages exReady [exHiItem, exOwnItem] .markChannel = .ok s1 ∧
        s1.lines = (([exHiItem, exOwnItem].filter isMessage).map
          (renderedLine [exAlice] exOperator)).reverse ++ exReady.lines.tail ∧
        s1.lines = ([exHiItem, exOwnItem].filter isMessage).foldl
          (fun ls m => unshiftLine (renderedLine [exAlice] exOperator m) ls) exReady.lines.tail ∧
        ((∀ m ∈ [exHiItem, exOwnItem], m.type = some messageType) →
          s1.lines = ([exHiItem, exOwnItem].reverse.map (renderedLine [exAlice] exOperator)) ++
            exReady.lines.tail ∧
          s1.lines = [exHiItem, exOwnItem].foldl
            (fun ls m => unshiftLine (renderedLine [exAlice] exOperator m) ls)
            exReady.lines.tail)) ∧
      linesAndMarks (updateMessages exReady [exHiItem, exOwnItem] .markChannel) =
        some ([chatLine exOperator.name exHello, chatLine exAlice.name exHi],
          [(.markChannel, some exC1, 1)]) :=
  ⟨rfl, rfl,
    updateMessages_order exReady [exAlice] exOperator [exHiItem, exOwnItem] .markChannel rfl rfl,
    by decide⟩

/-- C7, as stated, fails: for the page `[{text: 'hi', user: 'U1', ts: 1}]` of
the specification, whose entry has no type `message`, no line is added, and
the read-marker call is issued all the same; for a page that starts with an
entry of another type the call carries the timestamp of that entry (9), not
the one of the most recent message (1). -/
theorem updateMessages_marks_without_message :
    [exUntypedItem].filter isMessage = [] ∧
      linesAndMarks (updateMessages exReady [exUntypedItem] .markChannel) =
        some ([], [(.markChannel, some exC1, 1)]) ∧
      [exPinItem, exHiItem].filter isMessage = [exHiItem] ∧
      linesAndMarks (updateMessages exReady [exPinItem, exHiItem] .markChannel) =
        some ([chatLine exAlice.name exHi], [(.markChannel, some exC1, 9)]) :=
  ⟨by decide, by decide, by decide, by decide⟩

/-- C7, amended: with the roster and the operator loaded, `updateMessages`
issues a read-marker call exactly when the page has at least one entry, of any
type; the call carries `currentChannelId` and the timestamp of the first entry
of the page; the lines added are those of the entries of type `message`. -/
theorem updateMessages_marks (s : Session) (us : List User) (cu : User)
    (page : List HistoryItem) (f : MarkFn)
    (hu : s.users = some us) (hc : s.currentUser = some cu) :
    ∃ s1, updateMessages s page f = .ok s1 ∧
      markCalls s1.log = markCalls s.log ++
        (page.head?.map (fun m => (f, s.currentChannelId, m.ts))).toList ∧
      (markCalls s1.log ≠ markCalls s.log ↔ page ≠ []) ∧
      s1.lines = ((page.filter isMessage).map (renderedLine us cu)).reverse ++ s.lines.tail := by
  obtain ⟨s1, h1, h2, h3, _⟩ := updateMessages_ok s us cu page f hu hc
  have ht : deleteTop s.lines = s.lines.tail := by simp [deleteTop]
  rw [ht] at h2
  have hm : markCalls s1.log = markCalls s.log ++
      (page.head?.map (fun m => (f, s.currentChannelId, m.ts))).toList := by
    rw [h3]
    cases page <;> simp [markCalls_append, markCalls]
  refine ⟨s1, h1, hm, ?_, h2⟩
  rw [hm]
  cases page <;> simp

/-- Witness of `updateMessages_marks`: the scenario of the specification with
the type written out, the page `[{type: 'message', text: 'hi', user: 'U1',
ts: 1}]` and the roster `U1 -> Alice`: one line for Alice, one read-marker call
for timestamp 1. -/
theorem updateMessages_marks_witness :
    exReady.users = some [exAlice] ∧ exReady.currentUser = some exOperator ∧
      (∃ s1, updateMessages exReady [exHiItem] .markChannel = .ok s1 ∧
        markCalls s1.log = markCalls exReady.log ++
          (([exHiItem] : List HistoryItem).head?.map
            (fun m => (MarkFn.markChannel, exReady.currentChannelId, m.ts))).toList ∧
        (markCalls s1.log ≠ markCalls exReady.log ↔ [exHiItem] ≠ []) ∧
        s1.lines = (([exHiItem].filter isMessage).map
          (renderedLine [exAlice] exOperator)).reverse ++ exReady.lines.tail) ∧
      linesAndMarks (updateMessages exReady [exHiItem] .markChannel) =
        some ([chatLine exAlice.name exHi], [(.markChannel, some exC1, 1)]) :=
  ⟨rfl, rfl, updateMessages_marks exReady [exAlice] exOperator [exHiItem] .markChannel rfl rfl,
    by decide⟩

/-- C6, evaluated on the code: in every world reached from the start, a
new-message event for the current conversation whose author is the local
operator makes `handleNewMessage` raise a `TypeError` (the roster is either not
loaded or leaves the operator out, and the operator is not looked at), so the
websocket listener does not complete; `updateMessages` resolves the same
author to the operator's name. -/
theorem handleNewMessage_own_message_throws (events : List Event) (w : World)
    (message : RtmMessage) (cu : User)
    (hr : run World.initial events = some w)
    (hcu : w.session.currentUser = some cu)
    (hch : message.channel = w.session.currentChannelId)
    (hm : message.user = cu.id) :
    handleNewMessage w.session message = .error ⟨.typeError, w.session⟩ ∧
      (message.reply_to = none → message.type = some messageType →
        fire w (.wsMessage message) = .error ⟨.typeError, w.session⟩) ∧
      ∀ (us : List User) (item : HistoryItem), item.user = cu.id →
        renderedLine us cu item = chatLine cu.name item.text := by
  have hinv : RosterOk w.session :=
    run_rosterOk World.initial w events hr
      ⟨fun _ => rfl, fun us cu h => by simp [World.initial, Session.initial] at h⟩
  have hthrow : handleNewMessage w.session message = .error ⟨.typeError, w.session⟩ := by
    apply handleNewMessage_not_found _ _ hch
    intro us hus u hu
    rw [hm]
    exact hinv.2 us cu hus hcu u hu
  refine ⟨hthrow, ?_, ?_⟩
  · intro h1 h2
    simp [fire, onWsMessage, h1, h2, hthrow, World.withSession]
  · intro us item hitem
    simp [renderedLine, historyLine, hitem]

/-- Witness of `handleNewMessage_own_message_throws`: the operator `me` has
opened `C1` with the roster loaded, and a message written by `me` arrives for
`C1`. -/
theorem handleNewMessage_own_message_throws_witness :
    run World.initial exOpenGeneral = some (worldAfter exOpenGeneral) ∧
      (worldAfter exOpenGeneral).session.currentUser = some exOperator ∧
      (exNewMessage exC1 exOperator.id exHi).channel =
        (worldAfter exOpenGeneral).session.currentChannelId ∧
      (exNewMessage exC1 exOperator.id exHi).user = exOperator.id ∧
      (handleNewMessage (worldAfter exOpenGeneral).session (exNewMessage exC1 exOperator.id exHi) =
          .error ⟨.typeError, (worldAfter exOpenGeneral).session⟩ ∧
        ((exNewMessage exC1 exOperator.id exHi).reply_to = none →
          (exNewMessage exC1 exOperator.id exHi).type = some messageType →
          fire (worldAfter exOpenGeneral) (.wsMessage (exNewMessage exC1 exOperator.id exHi)) =
            .error ⟨.typeError, (worldAfter exOpenGeneral).session⟩) ∧
        ∀ (us : List User) (item : HistoryItem), item.user = exOperator.id →
          renderedLine us exOperator item = chatLine exOperator.name item.text) :=
  ⟨by decide, by decide, by decide, by decide,
    handleNewMessage_own_message_throws exOpenGeneral (worldAfter exOpenGeneral)
      (exNewMessage exC1 exOperator.id exHi) exOperator (by decide) (by decide) (by decide)
      (by decide)⟩

/-- C8, as stated, fails: the history of `C1` is requested, the operator
switches to `C2`, and the page of `C1` then arrives; the transcript of `C2`
receives the line of `C1` and a read-marker call is issued for `C2`. -/
theorem stale_history_is_applied :
    observe (run World.initial exSwitched) =
        some (some exC2, [loadingLine], [], [(exC1, .markChannel), (exC2, .markChannel)]) ∧
      observe (run World.initial (exSwitched ++ [.history exC1 .markChannel [exHiItem]])) =
        some (some exC2, [chatLine exAlice.name exHi], [(.markChannel, some exC2, 1)],
          [(exC2, .markChannel)]) :=
  ⟨rfl, rfl⟩

/-- C8, amended: a history page whose request was made for a conversation `a`
and that arrives when the current conversation is `b` is applied whatever `a`
is, also when `a` differs from `b`: nothing is discarded.  With the roster and
the operator loaded, the callback runs `updateMessages` on it: the first
transcript line is removed, the message entries of the page are put on top,
and for a page with at least one entry a read-marker call is issued for `b`
with the timestamp of the first entry; the current conversation stays `b`. -/
theorem stale_history_completion (w : World) (us : List User) (cu : User) (a b : Str)
    (f : MarkFn) (page : List HistoryItem)
    (hu : w.session.users = some us) (hc : w.session.currentUser = some cu)
    (hb : w.session.currentChannelId = some b)
    (hfetch : (a, f) ∈ w.fetches) :
    enabled w (.history a f page) = true ∧
      ∃ w1, fire w (.history a f page) = .ok w1 ∧
        w1.session.lines =
          ((page.filter isMessage).map (renderedLine us cu)).reverse ++ w.session.lines.tail ∧
        markCalls w1.session.log = markCalls w.session.log ++
          (page.head?.map (fun m => (f, some b, m.ts))).toList ∧
        w1.session.currentChannelId = some b ∧
        w1.fetches = w.fetches.erase (a, f) := by
  refine ⟨by simpa [enabled] using hfetch, ?_⟩
  obtain ⟨s1, h1, h2, h3, _, _, h6, _⟩ := updateMessages_ok w.session us cu page f hu hc
  have ht : deleteTop w.session.lines = w.session.lines.tail := by simp [deleteTop]
  refine ⟨{ w with session := s1, fetches := w.fetches.erase (a, f) }, ?_, ?_, ?_, ?_, rfl⟩
  · simp [fire, h1]
  · simpa [ht] using h2
  · simp only [h3, hb]
    cases page <;> simp [markCalls_append, markCalls]
  · simpa [hb] using h6

/-- Witness of `stale_history_completion`: the page of `C1` arrives after the
switch to `C2`. -/
theorem stale_history_completion_witness :
    (worldAfter exSwitched).session.users = some [exAlice] ∧
      (worldAfter exSwitched).session.currentUser = some exOperator ∧
      (worldAfter exSwitched).session.currentChannelId = some exC2 ∧
      exC1 ≠ exC2 ∧
      (exC1, MarkFn.markChannel) ∈ (worldAfter exSwitched).fetches ∧
      (enabled (worldAfter exSwitched) (.history exC1 .markChannel [exHiItem]) = true ∧
        ∃ w1, fire (worldAfter exSwitched) (.history exC1 .markChannel [exHiItem]) = .ok w1 ∧
          w1.session.lines =
            (([exHiItem].filter isMessage).map (renderedLine [exAlice] exOperator)).reverse ++
              (worldAfter exSwitched).session.lines.tail ∧
          markCalls w1.session.log = markCalls (worldAfter exSwitched).session.log ++
            (([exHiItem] : List HistoryItem).head?.map
              (fun m => (MarkFn.markChannel, some exC2, m.ts))).toList ∧
          w1.session.currentChannelId = some exC2 ∧
          w1.fetches = (worldAfter exSwitched).fetches.erase (exC1, .markChannel)) :=
  ⟨by decide, by decide, by decide, by decide, by decide,
    stale_history_completion (worldAfter exSwitched) [exAlice] exOperator exC1 exC2 .markChannel
      [exHiItem] (by decide) (by decide) (by decide) (by decide)⟩

/-- C1, evaluated on the code: an acknowledgment whose `reply_to` is 10 or more
changes no transcript line, because the tag read from a line is one decimal
digit; the pending line appended for that id stays in the transcript with its
`(pending - ` marker. -/
theorem ack_of_tenth_submit_patches_nothing (s : Session) (message : RtmMessage)
    (name text : Str) (n : Nat)
    (hn : 10 ≤ n) (hr : message.reply_to = some n) (hp : pendingLine name text n ∈ s.lines) :
    (handleSentConfirmation s message).lines = s.lines ∧
      pendingLine name text n ∈ (handleSentConfirmation s message).lines := by
  have h : (handleSentConfirmation s message).lines = s.lines := by
    rw [handleSentConfirmation_lines, scanPending_none]
    intro j _
    rw [hr]
    exact tagMatches_of_ten_le _ n hn
  exact ⟨h, by rw [h]; exact hp⟩

/-- Witness of `ack_of_tenth_submit_patches_nothing`: the operator submits
`hello` ten times, the tenth payload has the id 10, and the acknowledgment
`{reply_to: 10, ok: true}` arrives. -/
theorem ack_of_tenth_submit_patches_nothing_witness :
    (run World.initial exTenSubmits).isSome = true ∧
      (sentPayloads (sessionAfter exTenSubmits).log).map (fun p => p.id) =
        [1, 2, 3, 4, 5, 6, 7, 8, 9, 10] ∧
      (sessionAfter exTenSubmits).lines.getLast? = some (pendingLine exOperator.name exHello 10) ∧
      10 ≤ 10 ∧ (exAck 10 true).reply_to = some 10 ∧
      pendingLine exOperator.name exHello 10 ∈ (sessionAfter exTenSubmits).lines ∧
      ((handleSentConfirmation (sessionAfter exTenSubmits) (exAck 10 true)).lines =
          (sessionAfter exTenSubmits).lines ∧
        pendingLine exOperator.name exHello 10 ∈
          (handleSentConfirmation (sessionAfter exTenSubmits) (exAck 10 true)).lines) :=
  ⟨by decide, by decide, by decide, by decide, by decide, by decide,
    ack_of_tenth_submit_patches_nothing (sessionAfter exTenSubmits) (exAck 10 true)
      exOperator.name exHello 10 (by decide) (by decide) (by decide)⟩

/-- C2, evaluated on the code: the operator submits `hello`, the acknowledgment
`{reply_to: 1, ok: true}` patches its line, nine more submits follow (ids 2 to
10), and the same acknowledgment arrives again: it is not a no-op, it patches
the pending line of id 10, whose tag starts with the digit 1. -/
theorem duplicate_ack_patches_another_line :
    ((run World.initial exDuplicateAck).map (fun w => w.session.lines)).isSome = true ∧
      (sessionAfter exDuplicateAck).lines.getLast? =
        some (pendingLine exOperator.name exHello 10) ∧
      (sessionAfter exDuplicateAck).lines.head? = some (chatLine exOperator.name exHello ++ [' ']) ∧
      (handleSentConfirmation (sessionAfter exDuplicateAck) (exAck 1 true)).lines ≠
        (sessionAfter exDuplicateAck).lines ∧
      (handleSentConfirmation (sessionAfter exDuplicateAck) (exAck 1 true)).lines.getLast? =
        some (chatLine exOperator.name exHello ++ [' ']) :=
  ⟨by decide, by decide, by decide, by decide, by decide⟩

/-- C10, evaluated on the code: after twelve submits the transcript holds the
pending lines of the ids 1 to 12, top to bottom.  The acknowledgment
`{reply_to: 1, ok: true}` does not replace the line whose embedded id is 1
(position 0, the only one carrying that id): it replaces the line of id 12 at
position 11 and leaves the line of id 1 pending.  The acknowledgment
`{reply_to: 12, ok: true}` replaces no line, although the line of id 12 is
there.  The number of lines stays 12 in both cases. -/
theorem ack_replaces_line_of_another_id :
    (run World.initial exTwelveSubmits).isSome = true ∧
      (sessionAfter exTwelveSubmits).lines =
        (List.range 12).map (fun j => pendingLine exOperator.name exHello (j + 1)) ∧
      (handleSentConfirmation (sessionAfter exTwelveSubmits) (exAck 1 true)).lines =
        (sessionAfter exTwelveSubmits).lines.set 11 (chatLine exOperator.name exHello ++ [' ']) ∧
      (handleSentConfirmation (sessionAfter exTwelveSubmits) (exAck 1 true)).lines[0]? =
        some (pendingLine exOperator.name exHello 1) ∧
      (handleSentConfirmation (sessionAfter exTwelveSubmits) (exAck 1 true)).lines[11]? =
        some (chatLine exOperator.name exHello ++ [' ']) ∧
      (handleSentConfirmation (sessionAfter exTwelveSubmits) (exAck 12 true)).lines =
        (sessionAfter exTwelveSubmits).lines ∧
      (handleSentConfirmation (sessionAfter exTwelveSubmits) (exAck 12 true)).lines[11]? =
        some (pendingLine exOperator.name exHello 12) ∧
      (handleSentConfirmation (sessionAfter exTwelveSubmits) (exAck 1 true)).lines.length = 12 ∧
      (handleSentConfirmation (sessionAfter exTwelveSubmits) (exAck 12 true)).lines.length = 12 :=
  ⟨rfl, by decide, by decide, rfl, rfl, by decide, rfl, rfl, rfl⟩

end TerminalSlack
